import Mathlib

/-!
Verification development for the Clingy-API-v3 backend.

The account-provisioning workflow (`controllers/accountController.js`,
`createAccountSSE`) is embedded as a pure trace-producing interpreter: the
effect of one HTTP request is a `List Action` recording, in program order,
every SSE write (`emit`), every external call (credential-store read, GHL
platform calls, Google Drive call), every fixed `delay(ms)` pause, and the
single stream closure (`close`).  External calls are resolved against an
`Env` oracle that supplies each call's outcome, so failure paths are part of
the model.  The token-refresh cron job (`cronJobs/tokenRefreshJob.js`) and
the OAuth-callback credential upsert (`controllers/authController.js` +
`models/OAuthCredentials.js`) are embedded as pure state transformers.
JavaScript truthiness on string fields is modelled by comparing with `""`
(both `undefined` and the empty string are falsy in every guard involved).
-/

namespace Clingy

/-- One custom value object as returned by
`GET /locations/:id/customValues` (`services/ghlService.js`,
`getCustomValues`): only `id`, `name`, `value` are consumed. -/
structure CustomValue where
  id : String
  name : String
  value : String
deriving DecidableEq, Repr

/-- A funnel step from the funnel-list response (`services/ghlService.js`,
`getFunnelList`): `step.name` and `step.pages` are consumed. -/
structure FunnelStep where
  name : String
  pages : List String
deriving DecidableEq, Repr

/-- A funnel from the funnel-list response; only `funnel.steps` is consumed. -/
structure Funnel where
  steps : List FunnelStep
deriving DecidableEq, Repr

/-- The body of the funnel-list response (`response.data`); only
`data.funnels` is consumed.  An absent `funnels` array is modelled as `[]`. -/
structure FunnelListData where
  funnels : List Funnel
deriving DecidableEq, Repr

/-- The user-search response of `GET /users/search` (`services/ghlService.js`,
`checkUserExists`): only `count` is consumed.  An absent `count` is modelled
as `0`, which the JavaScript truthiness check treats the same way. -/
structure SearchResult where
  count : Int
deriving DecidableEq, Repr

/-- The fields of the `POST /locations/` response that the controller
consumes (`creationResponse.id`, `.name`, `.email`). -/
structure CreationResponse where
  id : String
  name : String
  email : String
deriving DecidableEq, Repr

/-- One stored credential document, after `models/OAuthCredentials.js`:
`expires_in` is the TTL in seconds and `created_at` is the issuance
timestamp, modelled in whole seconds since the epoch (the cron job reads it
as `Math.floor(created_at.getTime() / 1000)`). -/
structure OAuthCredentials where
  access_token : String
  refresh_token : String
  expires_in : Int
  userId : String
  locationId : String
  companyId : String
  created_at : Int
deriving DecidableEq, Repr

/-- The token data consumed from a refresh response
(`ghlService.refreshAccessToken` result): the cron job `$set`s exactly
`access_token`, `refresh_token` and `expires_in` from it. -/
structure TokenRefreshData where
  access_token : String
  refresh_token : String
  expires_in : Int
deriving DecidableEq, Repr

/-- The token data consumed from an authorization-code exchange
(`ghlService.getAccessToken` result) by `handleOAuthCallback`. -/
structure TokenExchangeData where
  access_token : String
  refresh_token : String
  expires_in : Int
  userId : String
  locationId : String
  companyId : String
deriving DecidableEq, Repr

/-- The provisioning request body of `POST /accountCreationSSE`
(`controllers/accountController.js`, lines 46-58).  A field absent from the
JSON body is modelled as `""` (both are falsy in the validation guard).
`businessNameSpaced` models the `"Business Name"` key and `business_name`
the default key. -/
structure Request where
  first_name : String
  last_name : String
  email : String
  phone : String
  address1 : String
  city : String
  state : String
  country : String
  postal_code : String
  businessNameSpaced : String
  business_name : String
deriving DecidableEq, Repr

/-- `req.body["Business Name"] || req.body.business_name` (line 58). -/
def businessName (r : Request) : String :=
  if r.businessNameSpaced = "" then r.business_name else r.businessNameSpaced

/-- The validation guard of step 1 (lines 60-71): true when at least one
required field is falsy, in the source's order of checks. -/
def missingRequiredField (r : Request) : Bool :=
  r.first_name == "" || r.last_name == "" || r.email == "" ||
  businessName r == "" || r.phone == "" || r.address1 == "" ||
  r.city == "" || r.state == "" || r.country == "" || r.postal_code == ""

/-- The deployment configuration read from the environment at module load
(`GHL_COMPANY_ID`, `GHL_SNAPSHOT_ID`, `GHL_PARENT_LOCATION_ID`,
`GOOGLE_DRIVE_PARENT_FOLDER_ID`). -/
structure Config where
  companyId : String
  snapshotId : String
  parentLocationId : String
  driveParentFolderId : String
deriving DecidableEq, Repr

/-- The `prospectInfo` sub-object of the account-creation payload. -/
structure ProspectInfo where
  firstName : String
  lastName : String
  email : String
deriving DecidableEq, Repr

/-- The `accountData` payload of step 3 (lines 116-127). -/
structure AccountPayload where
  name : String
  phone : String
  companyId : String
  address : String
  city : String
  state : String
  country : String
  postalCode : String
  prospectInfo : ProspectInfo
  snapshotId : String
deriving DecidableEq, Repr

/-- Builds the `accountData` object exactly as lines 116-127 do. -/
def accountPayload (cfg : Config) (r : Request) (agencyCompanyId : String) :
    AccountPayload :=
  { name := businessName r
    phone := r.phone
    companyId := agencyCompanyId
    address := r.address1
    city := r.city
    state := r.state
    country := r.country
    postalCode := r.postal_code
    prospectInfo := ⟨r.first_name, r.last_name, r.email⟩
    snapshotId := cfg.snapshotId }

/-- The fixed permission grant set of the user payload (lines 158-197),
transcribed in source order; every flag is `true` in the source. -/
def userPermissions : List (String × Bool) :=
  [("campaignsEnabled", true), ("campaignsReadOnly", true),
   ("contactsEnabled", true), ("workflowsEnabled", true),
   ("workflowsReadOnly", true), ("triggersEnabled", true),
   ("funnelsEnabled", true), ("websitesEnabled", true),
   ("opportunitiesEnabled", true), ("dashboardStatsEnabled", true),
   ("bulkRequestsEnabled", true), ("appointmentsEnabled", true),
   ("reviewsEnabled", true), ("onlineListingsEnabled", true),
   ("phoneCallEnabled", true), ("conversationsEnabled", true),
   ("assignedDataOnly", true), ("adwordsReportingEnabled", true),
   ("membershipEnabled", true), ("facebookAdsReportingEnabled", true),
   ("attributionsReportingEnabled", true), ("settingsEnabled", true),
   ("tagsEnabled", true), ("leadValueEnabled", true),
   ("marketingEnabled", true), ("agentReportingEnabled", true),
   ("botService", true), ("socialPlanner", true),
   ("bloggingEnabled", true), ("invoiceEnabled", true),
   ("affiliateManagerEnabled", true), ("contentAiEnabled", true),
   ("refundsEnabled", true), ("recordPaymentEnabled", true),
   ("cancelSubscriptionEnabled", true), ("paymentsEnabled", true),
   ("communitiesEnabled", true), ("exportPaymentsEnabled", true)]

/-- The `userPayload` of step 4 (lines 148-198). -/
structure UserPayload where
  companyId : String
  firstName : String
  lastName : String
  email : String
  password : String
  phone : String
  type : String
  role : String
  locationIds : List String
  permissions : List (String × Bool)
deriving DecidableEq, Repr

/-- Builds the `userPayload` object exactly as lines 147-198 do; the
password is the fixed pattern of line 147:
`` `Marketcl!ng_${country}${postalCode}` ``. -/
def userPayload (agencyCompanyId : String) (r : Request) (locationId : String) :
    UserPayload :=
  { companyId := agencyCompanyId
    firstName := r.first_name
    lastName := r.last_name
    email := r.email
    password := "Marketcl!ng_" ++ r.country ++ r.postal_code
    phone := r.phone
    type := "account"
    role := "admin"
    locationIds := [locationId]
    permissions := userPermissions }

/-- One observable step of a workflow run, in program order: an SSE data
write, the stream closure, a fixed pacing delay, or one external call
(credential-store read, GHL platform call, or Google Drive call) with the
business-relevant arguments the source passes. -/
inductive Action where
  | emit (msg : String)
  | close
  | delayMs (ms : Nat)
  | findCred (companyId : String)
  | checkUser (companyId email : String)
  | createAccount (payload : AccountPayload)
  | createUser (payload : UserPayload)
  | locationToken (companyId locationId : String)
  | funnelList (locationId : String)
  | createFolder (name parentId email : String)
  | getCustomValues (locationId : String)
  | updateCustomValue (locationId customValueId name value : String)
deriving DecidableEq, Repr

/-- True exactly for the actions that reach outside the process: the
credential store, the GHL platform API, or the Google Drive API. -/
def isExternalCall : Action → Bool
  | .emit _ => false
  | .close => false
  | .delayMs _ => false
  | _ => true

/-- The SSE messages of a trace, in emission order. -/
def events (tr : List Action) : List String :=
  tr.filterMap fun a => match a with | .emit m => some m | _ => none

/-- The external calls of a trace, in call order. -/
def externalCalls (tr : List Action) : List Action :=
  tr.filter isExternalCall

/-- How many times the stream was closed in a trace. -/
def closeCount (tr : List Action) : Nat :=
  tr.countP fun a => a == Action.close

/-- Failure events are prefixed with the cross mark in the source. -/
def isFailureEvent (m : String) : Bool := "❌".data.isPrefixOf m.data

/-- Executable substring test (used to compare an emitted error message
with the message text a claim quotes). -/
def strContains (s pat : String) : Bool :=
  s.data.tails.any fun t => pat.data.isPrefixOf t

/-- Outcome oracle for one workflow run: the result each external call
would produce if reached.  Token and custom-value calls are keyed by the
location they target, and custom-value updates by the custom value id,
because the workflow performs several of them. -/
structure Env where
  credential : Option OAuthCredentials
  search : Except String SearchResult
  createAccountResp : Except String CreationResponse
  createUserResp : Except String Unit
  locationTokenResp : String → Except String String
  funnelListResp : Except String FunnelListData
  createFolderResp : Except String String
  customValuesResp : String → Except String (List CustomValue)
  updateCustomValueResp : String → Except String Unit

/-- Pure core of `ghlService.checkUserExists` (lines 151-169 of the
service): `searchResponse && searchResponse.count && searchResponse.count > 0`,
with HTTP failure re-thrown as `GHL User Check Failed: ...`. -/
def checkUserExists (resp : Except String SearchResult) : Except String Bool :=
  match resp with
  | .error e => .error ("GHL User Check Failed: " ++ e)
  | .ok s => .ok (decide (0 < s.count))

/-- Error message produced by `ghlService.getFunnelList` when the response
carries no funnels. -/
def noFunnelsMsg : String :=
  "GHL Funnel List Failed: No funnels available in the GHL response."

/-- Error message produced by `ghlService.getFunnelList` when the Client
Portal step or its first page is missing (or the first page id is falsy). -/
def clientPortalMsg : String :=
  "GHL Funnel List Failed: Client Portal step or page ID not found in funnel."

/-- Pure core of `ghlService.getFunnelList` (lines 233-266 of the service):
take the first funnel, find the first step named exactly `"Client Portal"`,
take its first page id; every local throw is re-wrapped by the function's
own catch as `GHL Funnel List Failed: ...`.  The guard
`!clientPortalStep.pages?.[0]` also rejects an empty-string first page. -/
def getFunnelList (resp : Except String FunnelListData) : Except String String :=
  match resp with
  | .error e => .error ("GHL Funnel List Failed: " ++ e)
  | .ok data =>
    match data.funnels.head? with
    | none => .error noFunnelsMsg
    | some funnel =>
      match funnel.steps.find? (fun step => step.name == "Client Portal") with
      | none => .error clientPortalMsg
      | some clientPortalStep =>
        match clientPortalStep.pages.head? with
        | none => .error clientPortalMsg
        | some pageId =>
          if pageId = "" then .error clientPortalMsg else .ok pageId

/-- The terminal failure event of the controller's outer catch (lines
391-394): `"❌ Error: " + (err.message || default)`. -/
def failMsg (e : String) : String :=
  "❌ Error: " ++
    (if e = "" then "An unexpected error occurred during account creation."
     else e)

/-- The allow-list `fieldsToSync` of step 7 (lines 258-268). -/
def fieldsToSync : List String :=
  ["Agency Color 1", "Agency Color 2", "Agency Dark Logo",
   "Agency Light Logo", "Agency Name", "Agency Phone Number",
   "Agency Support Email", "Command Center Link Ending",
   "Client Assets Folder Link"]

/-- The lookup map built by the `forEach` loops of lines 280-306: a plain
object keyed by field name, restricted to allow-listed names, where a later
item with the same name overwrites an earlier one. -/
def fieldLookup (values : List CustomValue) (name : String) :
    Option CustomValue :=
  values.foldl
    (fun acc item =>
      if item.name ∈ fieldsToSync ∧ item.name = name then some item else acc)
    none

/-- The generic per-field sync loop of lines 310-333, in continuation style:
for each allow-listed field except the two specially-handled ones, if both
the parent map and the child map contain it, issue one update call; a failed
update is caught in the loop body (`catch` at line 324, result discarded,
loop continues), so both outcomes continue identically with the rest. -/
def genericUpdates (env : Env) (locId : String)
    (parentVals childVals : List CustomValue) :
    List String → List Action → List Action
  | [], rest => rest
  | fieldName :: fs, rest =>
    if fieldName ≠ "Client Assets Folder Link" ∧
       fieldName ≠ "Command Center Link Ending" then
      match fieldLookup parentVals fieldName, fieldLookup childVals fieldName with
      | some p, some c =>
        .updateCustomValue locId c.id p.name p.value ::
          (match env.updateCustomValueResp c.id with
           | .ok _ => genericUpdates env locId parentVals childVals fs rest
           | .error _ => genericUpdates env locId parentVals childVals fs rest)
      | _, _ => genericUpdates env locId parentVals childVals fs rest
    else genericUpdates env locId parentVals childVals fs rest

/-- The calls the generic sync loop issues (oracle-free description used in
statements; `genericUpdates` is proved equal to it followed by the rest). -/
def genericUpdateCalls (locId : String)
    (parentVals childVals : List CustomValue) : List String → List Action
  | [] => []
  | fieldName :: fs =>
    if fieldName ≠ "Client Assets Folder Link" ∧
       fieldName ≠ "Command Center Link Ending" then
      match fieldLookup parentVals fieldName, fieldLookup childVals fieldName with
      | some p, some c =>
        .updateCustomValue locId c.id p.name p.value ::
          genericUpdateCalls locId parentVals childVals fs
      | _, _ => genericUpdateCalls locId parentVals childVals fs
    else genericUpdateCalls locId parentVals childVals fs

/-- The special-case update of `"Command Center Link Ending"` (lines
336-356): performed only when the child field exists and the resolved link
is truthy, prefixing the page id with `/`; its own try/catch swallows a
failure, so both outcomes continue with the rest. -/
def commandCenterUpdate (env : Env) (locId : String)
    (childVals : List CustomValue) (commandCenterLink : String)
    (rest : List Action) : List Action :=
  match fieldLookup childVals "Command Center Link Ending" with
  | some commandField =>
    if commandCenterLink ≠ "" then
      .updateCustomValue locId commandField.id "Command Center Link Ending"
          ("/" ++ commandCenterLink) ::
        (match env.updateCustomValueResp commandField.id with
         | .ok _ => rest
         | .error _ => rest)
    else rest
  | none => rest

/-- Oracle-free description of the command-center update's calls. -/
def commandCenterUpdateCalls (locId : String) (childVals : List CustomValue)
    (commandCenterLink : String) : List Action :=
  match fieldLookup childVals "Command Center Link Ending" with
  | some commandField =>
    if commandCenterLink ≠ "" then
      [.updateCustomValue locId commandField.id "Command Center Link Ending"
        ("/" ++ commandCenterLink)]
    else []
  | none => []

/-- The special-case update of `"Client Assets Folder Link"` (lines
359-377): performed only when the child field exists, writing the Drive
folder link; its own try/catch swallows a failure. -/
def clientAssetsUpdate (env : Env) (locId : String)
    (childVals : List CustomValue) (driveFolderLink : String)
    (rest : List Action) : List Action :=
  match fieldLookup childVals "Client Assets Folder Link" with
  | some clientAssetsField =>
    .updateCustomValue locId clientAssetsField.id "Client Assets Folder Link"
        driveFolderLink ::
      (match env.updateCustomValueResp clientAssetsField.id with
       | .ok _ => rest
       | .error _ => rest)
  | none => rest

/-- Oracle-free description of the client-assets update's calls. -/
def clientAssetsUpdateCalls (locId : String) (childVals : List CustomValue)
    (driveFolderLink : String) : List Action :=
  match fieldLookup childVals "Client Assets Folder Link" with
  | some clientAssetsField =>
    [.updateCustomValue locId clientAssetsField.id "Client Assets Folder Link"
      driveFolderLink]
  | none => []

/-- Step 7 of the workflow (lines 253-379): parent location token, parent
custom values, child custom values (each fetch failure is thrown to the
outer catch), then the generic loop and the two special updates, then the
fields-synced and terminal success events and the stream closure. -/
def stepCustomValues (cfg : Config) (env : Env) (agencyCompanyId : String)
    (creationResponse : CreationResponse) (commandCenterLink : String)
    (driveFolderLink : String) : List Action :=
  .emit "Hang tight! We’re setting up your Clingy experience." ::
  .locationToken agencyCompanyId cfg.parentLocationId ::
  match env.locationTokenResp cfg.parentLocationId with
  | .error e => [.emit (failMsg e), .close]
  | .ok _parentAccessToken =>
    .getCustomValues cfg.parentLocationId ::
    match env.customValuesResp cfg.parentLocationId with
    | .error e => [.emit (failMsg e), .close]
    | .ok parentCustomValues =>
      .delayMs 10000 ::
      .getCustomValues creationResponse.id ::
      match env.customValuesResp creationResponse.id with
      | .error e => [.emit (failMsg e), .close]
      | .ok childCustomValues =>
        .delayMs 5000 ::
        genericUpdates env creationResponse.id parentCustomValues
          childCustomValues fieldsToSync
          (commandCenterUpdate env creationResponse.id childCustomValues
            commandCenterLink
            (clientAssetsUpdate env creationResponse.id childCustomValues
              driveFolderLink
              [.emit "Success! Your details are saved, and Clingy is ready to roll.",
               .emit "Great job! Your account is now active and ready for action.",
               .close]))

/-- Step 6 of the workflow (lines 231-250): Drive folder creation has its
own try/catch whose failure emits a fixed message and closes the stream. -/
def stepDriveFolder (cfg : Config) (env : Env) (agencyCompanyId : String)
    (creationResponse : CreationResponse) (commandCenterLink : String) :
    List Action :=
  .emit "Getting things organized! Your Google Drive folder is on its way." ::
  .createFolder creationResponse.name cfg.driveParentFolderId
    creationResponse.email ::
  match env.createFolderResp with
  | .error _ => [.emit "❌ Error during Google Drive folder creation.", .close]
  | .ok folderId =>
    .emit "Google Drive folder created successfully." ::
    stepCustomValues cfg env agencyCompanyId creationResponse
      commandCenterLink
      ("https://drive.google.com/drive/folders/" ++ folderId)

/-- Step 5 of the workflow (lines 206-226): child location token, settle
delay, funnel-list resolution of the command-center page id. -/
def stepCommandCenter (cfg : Config) (env : Env) (agencyCompanyId : String)
    (creationResponse : CreationResponse) : List Action :=
  .emit "Configuring your command center..." ::
  .locationToken agencyCompanyId creationResponse.id ::
  match env.locationTokenResp creationResponse.id with
  | .error e => [.emit (failMsg e), .close]
  | .ok _childAccessToken =>
    .delayMs 10000 ::
    .funnelList creationResponse.id ::
    match getFunnelList env.funnelListResp with
    | .error e => [.emit (failMsg e), .close]
    | .ok funnelPageID =>
      stepDriveFolder cfg env agencyCompanyId creationResponse funnelPageID

/-- Step 4 of the workflow (lines 141-201): settle delay then user creation
with the derived password payload. -/
def stepUser (cfg : Config) (r : Request) (env : Env)
    (agencyCompanyId : String) (creationResponse : CreationResponse) :
    List Action :=
  .emit "Setting up your user profile..." ::
  .delayMs 10000 ::
  .createUser (userPayload agencyCompanyId r creationResponse.id) ::
  match env.createUserResp with
  | .error e => [.emit (failMsg e), .close]
  | .ok _ =>
    .emit "You're one step closer to automating your marketing!" ::
    stepCommandCenter cfg env agencyCompanyId creationResponse

/-- Steps 2-3 of the workflow (lines 81-136): uniqueness check, then
account creation. -/
def stepUniqueness (cfg : Config) (r : Request) (env : Env)
    (agencyCompanyId : String) : List Action :=
  .checkUser agencyCompanyId r.email ::
  match checkUserExists env.search with
  | .error e => [.emit (failMsg e), .close]
  | .ok true => [.emit "❌ Error: User already exists.", .close]
  | .ok false =>
    .emit "Validating your details..." ::
    .emit "Creating your new marketing account..." ::
    .createAccount (accountPayload cfg r agencyCompanyId) ::
    match env.createAccountResp with
    | .error e => [.emit (failMsg e), .close]
    | .ok creationResponse =>
      .emit "Welcome aboard! Your journey to smarter marketing starts here." ::
      stepUser cfg r env agencyCompanyId creationResponse

/-- Step 2's credential load (lines 81-93): absent document or falsy access
token terminates; `credentials.companyId || GHL_AGENCY_COMPANY_ID` picks the
effective agency company id. -/
def stepCredential (cfg : Config) (r : Request) (env : Env) : List Action :=
  .findCred cfg.companyId ::
  match env.credential with
  | none =>
    [.emit "❌ Error: Access token not available. Please authorize first.",
     .close]
  | some credentials =>
    if credentials.access_token = "" then
      [.emit "❌ Error: Access token not available. Please authorize first.",
       .close]
    else
      stepUniqueness cfg r env
        (if credentials.companyId = "" then cfg.companyId
         else credentials.companyId)

/-- The whole SSE workflow `createAccountSSE`
(`controllers/accountController.js`, lines 22-397) as a trace of actions:
step 1's validation guard, then the credential load and the remaining
sequence.  A missing required field emits one failure event and closes the
stream before any external call. -/
def createAccountSSE (cfg : Config) (r : Request) (env : Env) : List Action :=
  if missingRequiredField r then
    [.emit "❌ Error: Missing required fields.", .close]
  else
    stepCredential cfg r env

/-- The eleven SSE data messages of a fully successful run, in emission
order (the constant trace the happy path produces). -/
def happyEvents : List String :=
  ["Validating your details...",
   "Creating your new marketing account...",
   "Welcome aboard! Your journey to smarter marketing starts here.",
   "Setting up your user profile...",
   "You're one step closer to automating your marketing!",
   "Configuring your command center...",
   "Getting things organized! Your Google Drive folder is on its way.",
   "Google Drive folder created successfully.",
   "Hang tight! We’re setting up your Clingy experience.",
   "Success! Your details are saved, and Clingy is ready to roll.",
   "Great job! Your account is now active and ready for action."]

/-- The complete action trace of a fully successful run, as a function of
the request, the effective credential, the created account, the resolved
page id, the Drive folder id, and the two fetched custom-value lists. -/
def happySSETrace (cfg : Config) (r : Request) (cred : OAuthCredentials)
    (acc : CreationResponse) (pageId folderId : String)
    (parentVals childVals : List CustomValue) : List Action :=
  let acid := if cred.companyId = "" then cfg.companyId else cred.companyId
  [.findCred cfg.companyId,
   .checkUser acid r.email,
   .emit "Validating your details...",
   .emit "Creating your new marketing account...",
   .createAccount (accountPayload cfg r acid),
   .emit "Welcome aboard! Your journey to smarter marketing starts here.",
   .emit "Setting up your user profile...",
   .delayMs 10000,
   .createUser (userPayload acid r acc.id),
   .emit "You're one step closer to automating your marketing!",
   .emit "Configuring your command center...",
   .locationToken acid acc.id,
   .delayMs 10000,
   .funnelList acc.id,
   .emit "Getting things organized! Your Google Drive folder is on its way.",
   .createFolder acc.name cfg.driveParentFolderId acc.email,
   .emit "Google Drive folder created successfully.",
   .emit "Hang tight! We’re setting up your Clingy experience.",
   .locationToken acid cfg.parentLocationId,
   .getCustomValues cfg.parentLocationId,
   .delayMs 10000,
   .getCustomValues acc.id,
   .delayMs 5000] ++
  genericUpdateCalls acc.id parentVals childVals fieldsToSync ++
  commandCenterUpdateCalls acc.id childVals pageId ++
  clientAssetsUpdateCalls acc.id childVals
    ("https://drive.google.com/drive/folders/" ++ folderId) ++
  [.emit "Success! Your details are saved, and Clingy is ready to roll.",
   .emit "Great job! Your account is now active and ready for action.",
   .close]

/-- Spec-level milestones of the progress protocol (spec, section 8). -/
inductive Milestone where
  | validate
  | uniqueness
  | accountCreated
  | userCreated
  | commandCenterResolved
  | folderCreated
  | fieldsSynced
  | success
deriving DecidableEq, Repr

/-- Refinement view: which spec-level milestones each concrete SSE message
attests.  `"Validating your details..."` is sent only after both the
validation and the uniqueness check have passed, so it attests both;
`"Configuring your command center..."` is the single event of the
command-center step; announcement-only messages attest nothing. -/
def milestonesOf (m : String) : List Milestone :=
  if m = "Validating your details..." then [.validate, .uniqueness]
  else if m = "Welcome aboard! Your journey to smarter marketing starts here."
    then [.accountCreated]
  else if m = "You're one step closer to automating your marketing!"
    then [.userCreated]
  else if m = "Configuring your command center..."
    then [.commandCenterResolved]
  else if m = "Google Drive folder created successfully."
    then [.folderCreated]
  else if m = "Success! Your details are saved, and Clingy is ready to roll."
    then [.fieldsSynced]
  else if m = "Great job! Your account is now active and ready for action."
    then [.success]
  else []

/-- Result of one cron run of `tokenRefreshJob`: the store contents after
the run, whether the refresh endpoint was invoked, and whether the stored
document was written. -/
structure JobResult where
  store : Option OAuthCredentials
  refreshCalled : Bool
  wrote : Bool
deriving DecidableEq, Repr

/-- One run of the token refresh job (`cronJobs/tokenRefreshJob.js`, lines
18-77): no credential is a no-op; otherwise the refresh fires exactly when
`now >= created_at + expires_in - 300`, and on success `$set`s the two
tokens, the TTL and `created_at := now` (the model timestamps the write
with the run's captured time).  A refresh failure is caught and writes
nothing. -/
def tokenRefreshJob (now : Int) (credential : Option OAuthCredentials)
    (refreshResp : Except String TokenRefreshData) : JobResult :=
  match credential with
  | none => { store := none, refreshCalled := false, wrote := false }
  | some credential =>
    let tokenExpiryTime := credential.created_at + credential.expires_in
    if tokenExpiryTime - 300 ≤ now then
      match refreshResp with
      | .ok newCredentials =>
        { store := some { credential with
            access_token := newCredentials.access_token
            refresh_token := newCredentials.refresh_token
            expires_in := newCredentials.expires_in
            created_at := now }
          refreshCalled := true
          wrote := true }
      | .error _ => { store := some credential, refreshCalled := true, wrote := false }
    else { store := some credential, refreshCalled := false, wrote := false }

/-- The document `handleOAuthCallback` saves (`controllers/authController.js`,
lines 37-49): every schema field rewritten from the exchange response, with
`created_at` set to the wall clock of the write. -/
def credentialsToSave (d : TokenExchangeData) (now : Int) : OAuthCredentials :=
  { access_token := d.access_token
    refresh_token := d.refresh_token
    expires_in := d.expires_in
    userId := d.userId
    locationId := d.locationId
    companyId := d.companyId
    created_at := now }

/-- `OAuthCredentials.findOneAndUpdate({ companyId }, doc, { upsert: true })`
over a store modelled as a document list: replace the first document whose
`companyId` matches, or insert the document if none matches. -/
def findOneAndUpdateUpsert : List OAuthCredentials → OAuthCredentials →
    List OAuthCredentials
  | [], doc => [doc]
  | r :: rs, doc =>
    if r.companyId = doc.companyId then doc :: rs
    else r :: findOneAndUpdateUpsert rs doc

/-- One authorization-callback invocation (`GET /api/auth/callback`): the
query code (absent or empty is rejected at line 19 before any store
access), the token-exchange outcome, and the wall clock of the write. -/
structure CallbackInvocation where
  code : String
  exchange : Except String TokenExchangeData
  now : Int

/-- Store effect of `handleOAuthCallback` (lines 15-62): the store changes
only when a code is present and the exchange succeeds, and then by the
keyed upsert of lines 37-49. -/
def handleOAuthCallback (store : List OAuthCredentials)
    (inv : CallbackInvocation) : List OAuthCredentials :=
  if inv.code = "" then store
  else
    match inv.exchange with
    | .error _ => store
    | .ok d => findOneAndUpdateUpsert store (credentialsToSave d inv.now)

/-- A sequence of authorization-callback invocations applied in order. -/
def runCallbacks (store : List OAuthCredentials)
    (invs : List CallbackInvocation) : List OAuthCredentials :=
  invs.foldl handleOAuthCallback store

/-- The Credential-Store invariant: at most one stored document per
`companyId`. -/
def atMostOnePerCompany (store : List OAuthCredentials) : Prop :=
  ∀ c : String, store.countP (fun r => r.companyId == c) ≤ 1

/-- Concrete configuration used to evaluate the model on closed inputs. -/
def wCfg : Config := ⟨"comp1", "snap1", "parentLoc1", "driveParent1"⟩

/-- Concrete valid provisioning request (business name arrives under the
`"Business Name"` key, as in the documented JSON shape). -/
def wReq : Request :=
  { first_name := "Jane", last_name := "Roe", email := "jane@example.com"
    phone := "5551234", address1 := "1 Main St", city := "Springfield"
    state := "IL", country := "US", postal_code := "62704"
    businessNameSpaced := "Acme LLC", business_name := "" }

/-- Concrete request identical to `wReq` except the email is absent. -/
def wReqMissing : Request := { wReq with email := "" }

/-- Concrete stored agency credential. -/
def wCred : OAuthCredentials :=
  { access_token := "atok", refresh_token := "rtok", expires_in := 86400
    userId := "u1", locationId := "l1", companyId := "comp1"
    created_at := 1000 }

/-- Concrete account-creation response. -/
def wAcc : CreationResponse := ⟨"loc123", "Acme LLC", "jane@example.com"⟩

/-- Concrete funnel-list body with one funnel holding a Client Portal step. -/
def wFl : FunnelListData := ⟨[⟨[⟨"Client Portal", ["page123"]⟩]⟩]⟩

/-- Concrete parent-tenant custom values. -/
def wParentVals : List CustomValue :=
  [⟨"p1", "Agency Name", "Acme"⟩, ⟨"p2", "Agency Color 1", "blue"⟩]

/-- Concrete child-tenant custom values. -/
def wChildVals : List CustomValue :=
  [⟨"c1", "Agency Name", ""⟩, ⟨"c2", "Command Center Link Ending", ""⟩,
   ⟨"c3", "Client Assets Folder Link", ""⟩]

/-- Location-token oracle that always succeeds. -/
def wTokf : String → Except String String := fun _ => .ok "tok"

/-- Custom-values oracle returning the parent list for the configured
parent location and the child list elsewhere. -/
def wCvf : String → Except String (List CustomValue) := fun l =>
  if l = "parentLoc1" then .ok wParentVals else .ok wChildVals

/-- Update oracle that always succeeds. -/
def wUpd : String → Except String Unit := fun _ => .ok ()

/-- Update oracle that always fails. -/
def wUpdFail : String → Except String Unit := fun _ => .error "boom"

/-- Fully successful environment for the workflow. -/
def wEnv : Env :=
  ⟨some wCred, .ok ⟨0⟩, .ok wAcc, .ok (), wTokf, .ok wFl, .ok "fold1",
   wCvf, wUpd⟩

/-- Environment identical to `wEnv` except the email is already taken. -/
def wEnvDup : Env := { wEnv with search := .ok ⟨1⟩ }

/-- Environment identical to `wEnv` except the funnel listing is empty. -/
def wEnvNoFunnel : Env := { wEnv with funnelListResp := .ok ⟨[]⟩ }

/-- The action prefix of a run that has reached the funnel-list call: used
to state where a funnel-resolution failure surfaces. -/
def funnelStagePrefix (cfg : Config) (r : Request) (cred : OAuthCredentials)
    (acc : CreationResponse) : List Action :=
  let acid := if cred.companyId = "" then cfg.companyId else cred.companyId
  [.findCred cfg.companyId,
   .checkUser acid r.email,
   .emit "Validating your details...",
   .emit "Creating your new marketing account...",
   .createAccount (accountPayload cfg r acid),
   .emit "Welcome aboard! Your journey to smarter marketing starts here.",
   .emit "Setting up your user profile...",
   .delayMs 10000,
   .createUser (userPayload acid r acc.id),
   .emit "You're one step closer to automating your marketing!",
   .emit "Configuring your command center...",
   .locationToken acid acc.id,
   .delayMs 10000,
   .funnelList acc.id]

theorem genericUpdates_eq (env : Env) (locId : String)
    (pv cv : List CustomValue) (fs : List String) (rest : List Action) :
    genericUpdates env locId pv cv fs rest =
      genericUpdateCalls locId pv cv fs ++ rest := by
  induction fs with
  | nil => rfl
  | cons f fs ih =>
    simp only [genericUpdates, genericUpdateCalls]
    by_cases h : f ≠ "Client Assets Folder Link" ∧
        f ≠ "Command Center Link Ending"
    · simp only [if_pos h]
      cases hp : fieldLookup pv f with
      | none => simpa using ih
      | some p =>
        cases hc : fieldLookup cv f with
        | none => simpa using ih
        | some c =>
          cases he : env.updateCustomValueResp c.id <;> simp [he, ih]
    · simp only [if_neg h]
      exact ih

theorem commandCenterUpdate_eq (env : Env) (locId : String)
    (cv : List CustomValue) (link : String) (rest : List Action) :
    commandCenterUpdate env locId cv link rest =
      commandCenterUpdateCalls locId cv link ++ rest := by
  simp only [commandCenterUpdate, commandCenterUpdateCalls]
  cases fieldLookup cv "Command Center Link Ending" with
  | none => simp
  | some f =>
    by_cases h : link ≠ ""
    · simp only [if_pos h]
      cases he : env.updateCustomValueResp f.id <;> simp [he]
    · simp [if_neg h]

theorem clientAssetsUpdate_eq (env : Env) (locId : String)
    (cv : List CustomValue) (link : String) (rest : List Action) :
    clientAssetsUpdate env locId cv link rest =
      clientAssetsUpdateCalls locId cv link ++ rest := by
  simp only [clientAssetsUpdate, clientAssetsUpdateCalls]
  cases fieldLookup cv "Client Assets Folder Link" with
  | none => simp
  | some f => cases he : env.updateCustomValueResp f.id <;> simp [he]

theorem createAccountSSE_happy (cfg : Config) (r : Request)
    (cred : OAuthCredentials) (s : SearchResult) (acc : CreationResponse)
    (tokf : String → Except String String) (fl : FunnelListData)
    (folderId : String) (cvf : String → Except String (List CustomValue))
    (upd : String → Except String Unit) (pageId childTok parentTok : String)
    (parentVals childVals : List CustomValue)
    (hv : missingRequiredField r = false)
    (ht : cred.access_token ≠ "")
    (hs : ¬ (0 < s.count))
    (hfl : getFunnelList (Except.ok fl) = Except.ok pageId)
    (h1 : tokf acc.id = Except.ok childTok)
    (h2 : tokf cfg.parentLocationId = Except.ok parentTok)
    (h3 : cvf cfg.parentLocationId = Except.ok parentVals)
    (h4 : cvf acc.id = Except.ok childVals) :
    createAccountSSE cfg r
        ⟨some cred, .ok s, .ok acc, .ok (), tokf, .ok fl, .ok folderId,
         cvf, upd⟩ =
      happySSETrace cfg r cred acc pageId folderId parentVals childVals := by
  simp only [createAccountSSE, hv, Bool.false_eq_true, if_false,
    stepCredential, ht, if_neg, stepUniqueness, checkUserExists, hs,
    decide_eq_false, stepUser, stepCommandCenter, h1, hfl, stepDriveFolder,
    stepCustomValues, h2, h3, h4, genericUpdates_eq, commandCenterUpdate_eq,
    clientAssetsUpdate_eq, happySSETrace]
  simp [List.append_assoc]

theorem fieldLookup_foldl_name (f : String) :
    ∀ (vs : List CustomValue) (acc : Option CustomValue),
      (∀ x, acc = some x → x.name = f) →
      ∀ x,
        vs.foldl
          (fun acc item =>
            if item.name ∈ fieldsToSync ∧ item.name = f then some item
            else acc) acc = some x →
        x.name = f := by
  intro vs
  induction vs with
  | nil => intro acc hacc x hx; exact hacc x hx
  | cons v vs ih =>
    intro acc hacc x hx
    refine ih _ ?_ x hx
    intro y hy
    dsimp only at hy
    by_cases hv : v.name ∈ fieldsToSync ∧ v.name = f
    · rw [if_pos hv] at hy
      cases hy
      exact hv.2
    · rw [if_neg hv] at hy
      exact hacc y hy

theorem fieldLookup_name {vs : List CustomValue} {f : String}
    {p : CustomValue} (h : fieldLookup vs f = some p) : p.name = f :=
  fieldLookup_foldl_name f vs none (by intro x hx; cases hx) p h

theorem events_genericUpdateCalls (locId : String)
    (pv cv : List CustomValue) :
    ∀ fs, events (genericUpdateCalls locId pv cv fs) = [] := by
  intro fs
  induction fs with
  | nil => rfl
  | cons g fs ih =>
    simp only [genericUpdateCalls]
    by_cases hg : g ≠ "Client Assets Folder Link" ∧
        g ≠ "Command Center Link Ending"
    · rw [if_pos hg]
      cases hgp : fieldLookup pv g with
      | none => exact ih
      | some p =>
        cases hgc : fieldLookup cv g with
        | none => exact ih
        | some c => simpa [events] using ih
    · rw [if_neg hg]
      exact ih

theorem closeCount_genericUpdateCalls (locId : String)
    (pv cv : List CustomValue) :
    ∀ fs, closeCount (genericUpdateCalls locId pv cv fs) = 0 := by
  intro fs
  induction fs with
  | nil => rfl
  | cons g fs ih =>
    simp only [genericUpdateCalls]
    by_cases hg : g ≠ "Client Assets Folder Link" ∧
        g ≠ "Command Center Link Ending"
    · rw [if_pos hg]
      cases hgp : fieldLookup pv g with
      | none => exact ih
      | some p =>
        cases hgc : fieldLookup cv g with
        | none => exact ih
        | some c => simpa [closeCount] using ih
    · rw [if_neg hg]
      exact ih

theorem events_commandCenterUpdateCalls (locId : String)
    (cv : List CustomValue) (link : String) :
    events (commandCenterUpdateCalls locId cv link) = [] := by
  simp only [commandCenterUpdateCalls]
  cases fieldLookup cv "Command Center Link Ending" with
  | none => rfl
  | some f =>
    by_cases h : link ≠ ""
    · simp [if_pos h, events]
    · simp [if_neg h, events]

theorem closeCount_commandCenterUpdateCalls (locId : String)
    (cv : List CustomValue) (link : String) :
    closeCount (commandCenterUpdateCalls locId cv link) = 0 := by
  simp only [commandCenterUpdateCalls]
  cases fieldLookup cv "Command Center Link Ending" with
  | none => rfl
  | some f =>
    by_cases h : link ≠ ""
    · simp [if_pos h, closeCount]
    · simp [if_neg h, closeCount]

theorem events_clientAssetsUpdateCalls (locId : String)
    (cv : List CustomValue) (link : String) :
    events (clientAssetsUpdateCalls locId cv link) = [] := by
  simp only [clientAssetsUpdateCalls]
  cases fieldLookup cv "Client Assets Folder Link" with
  | none => rfl
  | some f => simp [events]

theorem closeCount_clientAssetsUpdateCalls (locId : String)
    (cv : List CustomValue) (link : String) :
    closeCount (clientAssetsUpdateCalls locId cv link) = 0 := by
  simp only [clientAssetsUpdateCalls]
  cases fieldLookup cv "Client Assets Folder Link" with
  | none => rfl
  | some f => simp [closeCount]

theorem events_append (l₁ l₂ : List Action) :
    events (l₁ ++ l₂) = events l₁ ++ events l₂ := by
  simp [events, List.filterMap_append]

theorem closeCount_append (l₁ l₂ : List Action) :
    closeCount (l₁ ++ l₂) = closeCount l₁ + closeCount l₂ := by
  simp [closeCount, List.countP_append]

theorem happySSETrace_events (cfg : Config) (r : Request)
    (cred : OAuthCredentials) (acc : CreationResponse)
    (pageId folderId : String) (parentVals childVals : List CustomValue) :
    events (happySSETrace cfg r cred acc pageId folderId parentVals
      childVals) = happyEvents := by
  simp only [happySSETrace, events_append, events_genericUpdateCalls,
    events_commandCenterUpdateCalls, events_clientAssetsUpdateCalls]
  simp [events, happyEvents]

theorem happySSETrace_closeCount (cfg : Config) (r : Request)
    (cred : OAuthCredentials) (acc : CreationResponse)
    (pageId folderId : String) (parentVals childVals : List CustomValue) :
    closeCount (happySSETrace cfg r cred acc pageId folderId parentVals
      childVals) = 1 := by
  simp only [happySSETrace, closeCount_append, closeCount_genericUpdateCalls,
    closeCount_commandCenterUpdateCalls, closeCount_clientAssetsUpdateCalls]
  simp [closeCount, List.countP_cons]

theorem getLast?_append_close (l : List Action) (x y : Action) :
    (l ++ [x, y, Action.close]).getLast? = some Action.close := by
  simp [List.getLast?_append]

theorem happySSETrace_getLast (cfg : Config) (r : Request)
    (cred : OAuthCredentials) (acc : CreationResponse)
    (pageId folderId : String) (parentVals childVals : List CustomValue) :
    (happySSETrace cfg r cred acc pageId folderId parentVals
      childVals).getLast? = some Action.close := by
  simp only [happySSETrace]
  exact getLast?_append_close _ _ _

theorem mem_genericUpdateCalls (locId : String) (pv cv : List CustomValue)
    {f : String} {p c : CustomValue}
    (h1 : f ≠ "Client Assets Folder Link")
    (h2 : f ≠ "Command Center Link Ending")
    (hp : fieldLookup pv f = some p) (hc : fieldLookup cv f = some c) :
    ∀ fs, f ∈ fs →
      Action.updateCustomValue locId c.id p.name p.value ∈
        genericUpdateCalls locId pv cv fs := by
  intro fs
  induction fs with
  | nil => intro h; cases h
  | cons g fs ih =>
    intro hmem
    simp only [genericUpdateCalls]
    rcases List.mem_cons.mp hmem with rfl | hmem'
    · rw [if_pos ⟨h1, h2⟩, hp, hc]
      exact List.mem_cons_self _ _
    · by_cases hg : g ≠ "Client Assets Folder Link" ∧
          g ≠ "Command Center Link Ending"
      · rw [if_pos hg]
        cases hgp : fieldLookup pv g with
        | none => exact ih hmem'
        | some q =>
          cases hgc : fieldLookup cv g with
          | none => exact ih hmem'
          | some d => exact List.mem_cons_of_mem _ (ih hmem')
      · rw [if_neg hg]
        exact ih hmem'

theorem mem_genericUpdateCalls_inv (locId : String)
    (pv cv : List CustomValue) :
    ∀ (fs : List String) (a : Action), a ∈ genericUpdateCalls locId pv cv fs →
      ∃ f, f ∈ fs ∧ f ≠ "Client Assets Folder Link" ∧
        f ≠ "Command Center Link Ending" ∧
        ∃ p c, fieldLookup pv f = some p ∧ fieldLookup cv f = some c ∧
          a = Action.updateCustomValue locId c.id p.name p.value := by
  intro fs
  induction fs with
  | nil => intro a ha; cases ha
  | cons g fs ih =>
    intro a ha
    simp only [genericUpdateCalls] at ha
    by_cases hg : g ≠ "Client Assets Folder Link" ∧
        g ≠ "Command Center Link Ending"
    · rw [if_pos hg] at ha
      cases hgp : fieldLookup pv g with
      | none =>
        rw [hgp] at ha
        obtain ⟨f, hf, hrest⟩ := ih a ha
        exact ⟨f, List.mem_cons_of_mem _ hf, hrest⟩
      | some q =>
        rw [hgp] at ha
        cases hgc : fieldLookup cv g with
        | none =>
          rw [hgc] at ha
          obtain ⟨f, hf, hrest⟩ := ih a ha
          exact ⟨f, List.mem_cons_of_mem _ hf, hrest⟩
        | some d =>
          rw [hgc] at ha
          rcases List.mem_cons.mp ha with rfl | ha'
          · exact ⟨g, List.mem_cons_self _ _, hg.1, hg.2, q, d, hgp, hgc, rfl⟩
          · obtain ⟨f, hf, hrest⟩ := ih a ha'
            exact ⟨f, List.mem_cons_of_mem _ hf, hrest⟩
    · rw [if_neg hg] at ha
      obtain ⟨f, hf, hrest⟩ := ih a ha
      exact ⟨f, List.mem_cons_of_mem _ hf, hrest⟩

theorem mem_commandCenterUpdateCalls (locId : String)
    (cv : List CustomValue) {c : CustomValue} {link : String}
    (hc : fieldLookup cv "Command Center Link Ending" = some c)
    (hl : link ≠ "") :
    Action.updateCustomValue locId c.id "Command Center Link Ending"
        ("/" ++ link) ∈ commandCenterUpdateCalls locId cv link := by
  simp [commandCenterUpdateCalls, hc, hl]

theorem mem_clientAssetsUpdateCalls (locId : String)
    (cv : List CustomValue) {c : CustomValue} {link : String}
    (hc : fieldLookup cv "Client Assets Folder Link" = some c) :
    Action.updateCustomValue locId c.id "Client Assets Folder Link" link ∈
      clientAssetsUpdateCalls locId cv link := by
  simp [clientAssetsUpdateCalls, hc]

/-- Claim C1: for every provisioning request that passes validation, whose
email is unique under the owning entity (user-search count zero), and for
which every external call succeeds, the workflow emits exactly the fixed
eleven-message sequence `happyEvents` in program order — which, under the
`milestonesOf` refinement view, realizes the spec milestones
validate → uniqueness → account created → user created →
command-center resolved → folder created → fields synced → success with no
milestone skipped, reordered or repeated — and closes the stream exactly
once, after the final success event (`close` is the last trace action). -/
theorem createAccountSSE_happy_path_event_order
    (cfg : Config) (r : Request) (cred : OAuthCredentials) (s : SearchResult)
    (acc : CreationResponse) (tokf : String → Except String String)
    (fl : FunnelListData) (folderId : String)
    (cvf : String → Except String (List CustomValue))
    (upd : String → Except String Unit)
    (pageId childTok parentTok : String)
    (parentVals childVals : List CustomValue) (env : Env)
    (henv : env = ⟨some cred, .ok s, .ok acc, .ok (), tokf, .ok fl,
      .ok folderId, cvf, upd⟩)
    (hv : missingRequiredField r = false)
    (ht : cred.access_token ≠ "")
    (hs : ¬ (0 < s.count))
    (hfl : getFunnelList (Except.ok fl) = Except.ok pageId)
    (h1 : tokf acc.id = Except.ok childTok)
    (h2 : tokf cfg.parentLocationId = Except.ok parentTok)
    (h3 : cvf cfg.parentLocationId = Except.ok parentVals)
    (h4 : cvf acc.id = Except.ok childVals) :
    events (createAccountSSE cfg r env) = happyEvents ∧
    closeCount (createAccountSSE cfg r env) = 1 ∧
    (createAccountSSE cfg r env).getLast? = some Action.close ∧
    happyEvents.flatMap milestonesOf =
      [.validate, .uniqueness, .accountCreated, .userCreated,
       .commandCenterResolved, .folderCreated, .fieldsSynced, .success] := by
  subst henv
  have key := createAccountSSE_happy cfg r cred s acc tokf fl folderId cvf
    upd pageId childTok parentTok parentVals childVals hv ht hs hfl h1 h2 h3 h4
  rw [key]
  exact ⟨happySSETrace_events cfg r cred acc pageId folderId parentVals
      childVals,
    happySSETrace_closeCount cfg r cred acc pageId folderId parentVals
      childVals,
    happySSETrace_getLast cfg r cred acc pageId folderId parentVals childVals,
    by decide⟩

/-- Witness for C1: the fully successful concrete environment produces the
fixed event sequence and a single terminal closure. -/
theorem createAccountSSE_happy_path_event_order_witness :
    events (createAccountSSE wCfg wReq wEnv) = happyEvents ∧
    closeCount (createAccountSSE wCfg wReq wEnv) = 1 ∧
    (createAccountSSE wCfg wReq wEnv).getLast? = some Action.close ∧
    happyEvents.flatMap milestonesOf =
      [.validate, .uniqueness, .accountCreated, .userCreated,
       .commandCenterResolved, .folderCreated, .fieldsSynced, .success] :=
  createAccountSSE_happy_path_event_order wCfg wReq wCred ⟨0⟩ wAcc wTokf wFl
    "fold1" wCvf wUpd "page123" "tok" "tok" wParentVals wChildVals wEnv
    rfl (by decide) (by decide) (by decide) rfl rfl rfl rfl rfl

/-- Claim C2: a request missing at least one required field makes the
workflow emit exactly one failure event and close the stream, with zero
external calls (no platform, storage, or credential-store action appears
in the trace). -/
theorem createAccountSSE_missing_field (cfg : Config) (r : Request)
    (env : Env) (h : missingRequiredField r = true) :
    createAccountSSE cfg r env =
      [.emit "❌ Error: Missing required fields.", .close] ∧
    events (createAccountSSE cfg r env) =
      ["❌ Error: Missing required fields."] ∧
    isFailureEvent "❌ Error: Missing required fields." = true ∧
    externalCalls (createAccountSSE cfg r env) = [] ∧
    closeCount (createAccountSSE cfg r env) = 1 := by
  have key : createAccountSSE cfg r env =
      [.emit "❌ Error: Missing required fields.", .close] := by
    simp [createAccountSSE, h]
  exact ⟨key, by rw [key]; rfl, by decide, by rw [key]; rfl,
    by rw [key]; rfl⟩

/-- Witness for C2: the concrete request with an absent email. -/
theorem createAccountSSE_missing_field_witness :
    createAccountSSE wCfg wReqMissing wEnv =
      [.emit "❌ Error: Missing required fields.", .close] ∧
    events (createAccountSSE wCfg wReqMissing wEnv) =
      ["❌ Error: Missing required fields."] ∧
    isFailureEvent "❌ Error: Missing required fields." = true ∧
    externalCalls (createAccountSSE wCfg wReqMissing wEnv) = [] ∧
    closeCount (createAccountSSE wCfg wReqMissing wEnv) = 1 :=
  createAccountSSE_missing_field wCfg wReqMissing wEnv (by decide)

/-- Claim C5: when the request is valid, a credential is available, and the
user search reports a positive count (the email already exists), the
workflow emits exactly one failure event, after the uniqueness-check call
and before any account-creation call, closes the stream, and never invokes
account creation. -/
theorem createAccountSSE_duplicate_email (cfg : Config) (r : Request)
    (cred : OAuthCredentials) (s : SearchResult) (env : Env)
    (henv1 : env.credential = some cred)
    (henv2 : env.search = Except.ok s)
    (hv : missingRequiredField r = false)
    (ht : cred.access_token ≠ "")
    (hs : 0 < s.count) :
    createAccountSSE cfg r env =
      [.findCred cfg.companyId,
       .checkUser (if cred.companyId = "" then cfg.companyId
         else cred.companyId) r.email,
       .emit "❌ Error: User already exists.", .close] ∧
    events (createAccountSSE cfg r env) = ["❌ Error: User already exists."] ∧
    closeCount (createAccountSSE cfg r env) = 1 ∧
    ∀ p, Action.createAccount p ∉ createAccountSSE cfg r env := by
  have key : createAccountSSE cfg r env =
      [.findCred cfg.companyId,
       .checkUser (if cred.companyId = "" then cfg.companyId
         else cred.companyId) r.email,
       .emit "❌ Error: User already exists.", .close] := by
    simp [createAccountSSE, hv, stepCredential, henv1, ht, stepUniqueness,
      checkUserExists, henv2, hs]
  refine ⟨key, by rw [key]; rfl, by rw [key]; rfl, ?_⟩
  intro p
  rw [key]
  simp

/-- Witness for C5: the concrete environment whose user search finds one
existing user. -/
theorem createAccountSSE_duplicate_email_witness :
    createAccountSSE wCfg wReq wEnvDup =
      [.findCred wCfg.companyId,
       .checkUser (if wCred.companyId = "" then wCfg.companyId
         else wCred.companyId) wReq.email,
       .emit "❌ Error: User already exists.", .close] ∧
    events (createAccountSSE wCfg wReq wEnvDup) =
      ["❌ Error: User already exists."] ∧
    closeCount (createAccountSSE wCfg wReq wEnvDup) = 1 ∧
    ∀ p, Action.createAccount p ∉ createAccountSSE wCfg wReq wEnvDup :=
  createAccountSSE_duplicate_email wCfg wReq wCred ⟨1⟩ wEnvDup rfl rfl
    (by decide) (by decide) (by decide)

/-- Claim C9: the initial password supplied to the platform user-creation
call is the fixed literal prefix `Marketcl!ng_` concatenated with the
request's country then its postal code; two requests with equal country and
postal code yield the same password; and on a successful run the workflow's
user-creation call carries exactly this payload. -/
theorem userPayload_password_deterministic (cid : String) (r : Request)
    (lid cid' : String) (r' : Request) (lid' : String)
    (hcountry : r.country = r'.country)
    (hpostal : r.postal_code = r'.postal_code) :
    (userPayload cid r lid).password =
      "Marketcl!ng_" ++ r.country ++ r.postal_code ∧
    (userPayload cid r lid).password = (userPayload cid' r' lid').password ∧
    (∀ (cfg : Config) (cred : OAuthCredentials) (s : SearchResult)
       (acc : CreationResponse) (tokf : String → Except String String)
       (fl : FunnelListData) (folderId : String)
       (cvf : String → Except String (List CustomValue))
       (upd : String → Except String Unit)
       (pageId childTok parentTok : String)
       (parentVals childVals : List CustomValue),
       missingRequiredField r = false → cred.access_token ≠ "" →
       ¬ (0 < s.count) → getFunnelList (Except.ok fl) = Except.ok pageId →
       tokf acc.id = Except.ok childTok →
       tokf cfg.parentLocationId = Except.ok parentTok →
       cvf cfg.parentLocationId = Except.ok parentVals →
       cvf acc.id = Except.ok childVals →
       Action.createUser (userPayload
           (if cred.companyId = "" then cfg.companyId else cred.companyId)
           r acc.id) ∈
         createAccountSSE cfg r
           ⟨some cred, .ok s, .ok acc, .ok (), tokf, .ok fl, .ok folderId,
            cvf, upd⟩) := by
  refine ⟨rfl, by simp [userPayload, hcountry, hpostal], ?_⟩
  intro cfg cred s acc tokf fl folderId cvf upd pageId childTok parentTok
    parentVals childVals hv ht hs hfl h1 h2 h3 h4
  rw [createAccountSSE_happy cfg r cred s acc tokf fl folderId cvf upd
    pageId childTok parentTok parentVals childVals hv ht hs hfl h1 h2 h3 h4]
  simp [happySSETrace]

/-- Witness for C9 at the concrete request and environment. -/
theorem userPayload_password_deterministic_witness :
    (userPayload "comp1" wReq "loc123").password =
      "Marketcl!ng_" ++ wReq.country ++ wReq.postal_code ∧
    (userPayload "comp1" wReq "loc123").password =
      (userPayload "other" wReq "loc999").password ∧
    Action.createUser (userPayload
        (if wCred.companyId = "" then wCfg.companyId else wCred.companyId)
        wReq wAcc.id) ∈
      createAccountSSE wCfg wReq wEnv :=
  have h := userPayload_password_deterministic "comp1" wReq "loc123" "other"
    wReq "loc999" rfl rfl
  ⟨h.1, h.2.1,
   h.2.2 wCfg wCred ⟨0⟩ wAcc wTokf wFl "fold1" wCvf wUpd "page123" "tok"
     "tok" wParentVals wChildVals (by decide) (by decide) (by decide)
     rfl rfl rfl rfl rfl⟩

/-- Claim C6: on a run that reaches field synchronization, failures of
custom-field updates (generic or special) are caught and non-fatal: the
trace does not depend on the update oracle at all, every eligible field
update is still attempted, and the run still ends with the terminal success
events and a single closure. -/
theorem createAccountSSE_sync_failures_nonfatal
    (cfg : Config) (r : Request) (cred : OAuthCredentials) (s : SearchResult)
    (acc : CreationResponse) (tokf : String → Except String String)
    (fl : FunnelListData) (folderId : String)
    (cvf : String → Except String (List CustomValue))
    (pageId childTok parentTok : String)
    (parentVals childVals : List CustomValue)
    (hv : missingRequiredField r = false)
    (ht : cred.access_token ≠ "")
    (hs : ¬ (0 < s.count))
    (hfl : getFunnelList (Except.ok fl) = Except.ok pageId)
    (h1 : tokf acc.id = Except.ok childTok)
    (h2 : tokf cfg.parentLocationId = Except.ok parentTok)
    (h3 : cvf cfg.parentLocationId = Except.ok parentVals)
    (h4 : cvf acc.id = Except.ok childVals) :
    (∀ upd upd' : String → Except String Unit,
      createAccountSSE cfg r ⟨some cred, .ok s, .ok acc, .ok (), tokf,
        .ok fl, .ok folderId, cvf, upd⟩ =
      createAccountSSE cfg r ⟨some cred, .ok s, .ok acc, .ok (), tokf,
        .ok fl, .ok folderId, cvf, upd'⟩) ∧
    (∀ upd, events (createAccountSSE cfg r ⟨some cred, .ok s, .ok acc,
        .ok (), tokf, .ok fl, .ok folderId, cvf, upd⟩) = happyEvents ∧
      closeCount (createAccountSSE cfg r ⟨some cred, .ok s, .ok acc, .ok (),
        tokf, .ok fl, .ok folderId, cvf, upd⟩) = 1 ∧
      (createAccountSSE cfg r ⟨some cred, .ok s, .ok acc, .ok (), tokf,
        .ok fl, .ok folderId, cvf, upd⟩).getLast? = some Action.close) ∧
    (∀ (upd : String → Except String Unit) (f : String)
       (p c : CustomValue), f ∈ fieldsToSync →
      f ≠ "Client Assets Folder Link" → f ≠ "Command Center Link Ending" →
      fieldLookup parentVals f = some p → fieldLookup childVals f = some c →
      Action.updateCustomValue acc.id c.id p.name p.value ∈
        createAccountSSE cfg r ⟨some cred, .ok s, .ok acc, .ok (), tokf,
          .ok fl, .ok folderId, cvf, upd⟩) ∧
    (∀ (upd : String → Except String Unit) (c : CustomValue),
      fieldLookup childVals "Command Center Link Ending" = some c →
      pageId ≠ "" →
      Action.updateCustomValue acc.id c.id "Command Center Link Ending"
          ("/" ++ pageId) ∈
        createAccountSSE cfg r ⟨some cred, .ok s, .ok acc, .ok (), tokf,
          .ok fl, .ok folderId, cvf, upd⟩) ∧
    (∀ (upd : String → Except String Unit) (c : CustomValue),
      fieldLookup childVals "Client Assets Folder Link" = some c →
      Action.updateCustomValue acc.id c.id "Client Assets Folder Link"
          ("https://drive.google.com/drive/folders/" ++ folderId) ∈
        createAccountSSE cfg r ⟨some cred, .ok s, .ok acc, .ok (), tokf,
          .ok fl, .ok folderId, cvf, upd⟩) := by
  have key : ∀ upd : String → Except String Unit,
      createAccountSSE cfg r ⟨some cred, .ok s, .ok acc, .ok (), tokf,
        .ok fl, .ok folderId, cvf, upd⟩ =
      happySSETrace cfg r cred acc pageId folderId parentVals childVals :=
    fun upd => createAccountSSE_happy cfg r cred s acc tokf fl folderId cvf
      upd pageId childTok parentTok parentVals childVals hv ht hs hfl h1 h2
      h3 h4
  refine ⟨fun upd upd' => (key upd).trans (key upd').symm,
    fun upd => ?_, fun upd f p c hf hne1 hne2 hp hc => ?_,
    fun upd c hc hl => ?_, fun upd c hc => ?_⟩
  · rw [key upd]
    exact ⟨happySSETrace_events cfg r cred acc pageId folderId parentVals
        childVals,
      happySSETrace_closeCount cfg r cred acc pageId folderId parentVals
        childVals,
      happySSETrace_getLast cfg r cred acc pageId folderId parentVals
        childVals⟩
  · rw [key upd]
    simp only [happySSETrace, List.mem_append]
    exact Or.inl (Or.inl (Or.inl (Or.inr
      (mem_genericUpdateCalls acc.id parentVals childVals hne1 hne2 hp hc
        fieldsToSync hf))))
  · rw [key upd]
    simp only [happySSETrace, List.mem_append]
    exact Or.inl (Or.inl (Or.inr
      (mem_commandCenterUpdateCalls acc.id childVals hc hl)))
  · rw [key upd]
    simp only [happySSETrace, List.mem_append]
    exact Or.inl (Or.inr (mem_clientAssetsUpdateCalls acc.id childVals hc))

/-- Witness for C6: with the always-failing update oracle the trace equals
the one with the always-succeeding oracle and still shows the fixed success
event sequence. -/
theorem createAccountSSE_sync_failures_nonfatal_witness :
    createAccountSSE wCfg wReq ⟨some wCred, .ok ⟨0⟩, .ok wAcc, .ok (), wTokf,
        .ok wFl, .ok "fold1", wCvf, wUpdFail⟩ =
      createAccountSSE wCfg wReq ⟨some wCred, .ok ⟨0⟩, .ok wAcc, .ok (),
        wTokf, .ok wFl, .ok "fold1", wCvf, wUpd⟩ ∧
    events (createAccountSSE wCfg wReq ⟨some wCred, .ok ⟨0⟩, .ok wAcc,
      .ok (), wTokf, .ok wFl, .ok "fold1", wCvf, wUpdFail⟩) = happyEvents :=
  have h := createAccountSSE_sync_failures_nonfatal wCfg wReq wCred ⟨0⟩ wAcc
    wTokf wFl "fold1" wCvf "page123" "tok" "tok" wParentVals wChildVals
    (by decide) (by decide) (by decide) rfl rfl rfl rfl rfl
  ⟨h.1 wUpdFail wUpd, (h.2.1 wUpdFail).1⟩

/-- Claim C10: in the generic synchronization loop, a template value is
copied only for allow-listed non-special field names present in both
fetched field maps; a field missing on either side generates no update
call naming it, no progress event, and no abort (the loop always continues
into the rest of the workflow). -/
theorem genericLoop_allowlist_both_sides (locId : String)
    (pv cv : List CustomValue) (f : String) :
    (∀ p c, f ∈ fieldsToSync → f ≠ "Client Assets Folder Link" →
       f ≠ "Command Center Link Ending" → fieldLookup pv f = some p →
       fieldLookup cv f = some c →
       Action.updateCustomValue locId c.id p.name p.value ∈
         genericUpdateCalls locId pv cv fieldsToSync) ∧
    ((fieldLookup pv f = none ∨ fieldLookup cv f = none) →
       ∀ i n v, Action.updateCustomValue locId i n v ∈
         genericUpdateCalls locId pv cv fieldsToSync → n ≠ f) ∧
    events (genericUpdateCalls locId pv cv fieldsToSync) = [] ∧
    (∀ (env : Env) (rest : List Action),
       genericUpdates env locId pv cv fieldsToSync rest =
         genericUpdateCalls locId pv cv fieldsToSync ++ rest) := by
  refine ⟨fun p c hf h1 h2 hp hc =>
      mem_genericUpdateCalls locId pv cv h1 h2 hp hc fieldsToSync hf,
    ?_, events_genericUpdateCalls locId pv cv fieldsToSync,
    fun env rest => genericUpdates_eq env locId pv cv fieldsToSync rest⟩
  intro hnone i n v hmem heqf
  obtain ⟨g, hgmem, hne1, hne2, p, c, hp, hc, heq⟩ :=
    mem_genericUpdateCalls_inv locId pv cv fieldsToSync _ hmem
  injection heq with e1 e2 e3 e4
  have hg : g = f := ((fieldLookup_name hp).symm.trans e3.symm).trans heqf
  subst hg
  rcases hnone with h | h
  · rw [h] at hp; cases hp
  · rw [h] at hc; cases hc

/-- Witness for C10 at concrete field lists: `Agency Name` is present on
both sides and is copied; `Agency Color 2` is absent from the parent side
and generates no call naming it. -/
theorem genericLoop_allowlist_both_sides_witness :
    Action.updateCustomValue "loc123" "c1" "Agency Name" "Acme" ∈
      genericUpdateCalls "loc123" wParentVals wChildVals fieldsToSync ∧
    (∀ i n v, Action.updateCustomValue "loc123" i n v ∈
      genericUpdateCalls "loc123" wParentVals wChildVals fieldsToSync →
      n ≠ "Agency Color 2") ∧
    events (genericUpdateCalls "loc123" wParentVals wChildVals
      fieldsToSync) = [] :=
  have h := genericLoop_allowlist_both_sides "loc123" wParentVals wChildVals
    "Agency Name"
  have h2 := genericLoop_allowlist_both_sides "loc123" wParentVals wChildVals
    "Agency Color 2"
  ⟨h.1 ⟨"p1", "Agency Name", "Acme"⟩ ⟨"c1", "Agency Name", ""⟩ (by decide)
     (by decide) (by decide) (by decide) (by decide),
   h2.2.1 (Or.inl (by decide)), h.2.2.1⟩

/-- Claim C3: with a stored credential present, a scheduler run invokes the
refresh operation exactly when `now >= created_at + expires_in - 300`; and
a successful refresh overwrites the stored access token, refresh token and
TTL with the refresh result and resets `created_at` to the run's time. -/
theorem tokenRefreshJob_fires_iff (now : Int) (cred : OAuthCredentials)
    (resp : Except String TokenRefreshData) :
    ((tokenRefreshJob now (some cred) resp).refreshCalled = true ↔
      cred.created_at + cred.expires_in - 300 ≤ now) ∧
    (∀ nd, resp = Except.ok nd →
      cred.created_at + cred.expires_in - 300 ≤ now →
      tokenRefreshJob now (some cred) resp =
        { store := some { cred with
            access_token := nd.access_token
            refresh_token := nd.refresh_token
            expires_in := nd.expires_in
            created_at := now }
          refreshCalled := true
          wrote := true }) := by
  constructor
  · by_cases h : cred.created_at + cred.expires_in - 300 ≤ now
    · cases resp <;> simp [tokenRefreshJob, h]
    · simp [tokenRefreshJob, h]
  · intro nd hresp h
    subst hresp
    simp [tokenRefreshJob, h]

/-- Witness for C3: a due credential is refreshed and rewritten in place. -/
theorem tokenRefreshJob_fires_iff_witness :
    (tokenRefreshJob 100000 (some wCred)
      (Except.ok ⟨"nt", "nr", 3600⟩)).refreshCalled = true ∧
    tokenRefreshJob 100000 (some wCred) (Except.ok ⟨"nt", "nr", 3600⟩) =
      { store := some { wCred with
          access_token := "nt"
          refresh_token := "nr"
          expires_in := 3600
          created_at := 100000 }
        refreshCalled := true
        wrote := true } :=
  ⟨(tokenRefreshJob_fires_iff 100000 wCred
      (Except.ok ⟨"nt", "nr", 3600⟩)).1.mpr (by decide),
   (tokenRefreshJob_fires_iff 100000 wCred
      (Except.ok ⟨"nt", "nr", 3600⟩)).2 ⟨"nt", "nr", 3600⟩ rfl (by decide)⟩

/-- Counterexample for C8: on a funnel listing with no funnel, the run does
terminate with a failure event, but its text is the distinct no-funnels
message, not the claimed "Client Portal step or page not found" (which does
not even occur as a substring of the emitted event). -/
theorem getFunnelList_no_funnel_message_counterexample :
    createAccountSSE wCfg wReq wEnvNoFunnel =
      funnelStagePrefix wCfg wReq wCred wAcc ++
        [.emit (failMsg noFunnelsMsg), .close] ∧
    failMsg noFunnelsMsg =
      "❌ Error: GHL Funnel List Failed: No funnels available in the GHL response." ∧
    strContains (failMsg noFunnelsMsg)
      "Client Portal step or page not found" = false ∧
    strContains (failMsg noFunnelsMsg) "Client Portal" = false := by
  refine ⟨by decide, rfl, by decide, by decide⟩

/-- Claim C8 (amended): `getFunnelList` returns the first page id of the
first step named exactly "Client Portal" within the first funnel, provided
that id is non-empty; an empty funnel listing fails with the distinct
message "GHL Funnel List Failed: No funnels available in the GHL
response.", while a missing Client Portal step, a missing first page, or an
empty first page id fails with "GHL Funnel List Failed: Client Portal step
or page ID not found in funnel."; either failure propagates to the workflow
as one terminal failure event followed by the stream closure. -/
theorem getFunnelList_resolution :
    (∀ e, getFunnelList (Except.error e) =
      Except.error ("GHL Funnel List Failed: " ++ e)) ∧
    (∀ data : FunnelListData, data.funnels.head? = none →
      getFunnelList (Except.ok data) = Except.error noFunnelsMsg) ∧
    (∀ (data : FunnelListData) (fn : Funnel),
      data.funnels.head? = some fn →
      fn.steps.find? (fun st => st.name == "Client Portal") = none →
      getFunnelList (Except.ok data) = Except.error clientPortalMsg) ∧
    (∀ (data : FunnelListData) (fn : Funnel) (st : FunnelStep),
      data.funnels.head? = some fn →
      fn.steps.find? (fun s2 => s2.name == "Client Portal") = some st →
      (st.pages.head? = none ∨ st.pages.head? = some "") →
      getFunnelList (Except.ok data) = Except.error clientPortalMsg) ∧
    (∀ (data : FunnelListData) (fn : Funnel) (st : FunnelStep) (p : String),
      data.funnels.head? = some fn →
      fn.steps.find? (fun s2 => s2.name == "Client Portal") = some st →
      st.pages.head? = some p → p ≠ "" →
      getFunnelList (Except.ok data) = Except.ok p) ∧
    (∀ (cfg : Config) (r : Request) (cred : OAuthCredentials)
       (s : SearchResult) (acc : CreationResponse)
       (tokf : String → Except String String)
       (flResp : Except String FunnelListData)
       (foldResp : Except String String)
       (cvf : String → Except String (List CustomValue))
       (upd : String → Except String Unit) (m childTok : String),
      missingRequiredField r = false → cred.access_token ≠ "" →
      ¬ (0 < s.count) → tokf acc.id = Except.ok childTok →
      getFunnelList flResp = Except.error m →
      createAccountSSE cfg r
          ⟨some cred, .ok s, .ok acc, .ok (), tokf, flResp, foldResp,
           cvf, upd⟩ =
        funnelStagePrefix cfg r cred acc ++
          [.emit (failMsg m), .close]) := by
  refine ⟨fun e => rfl, fun data h => by simp [getFunnelList, h],
    fun data fn h1 h2 => by simp [getFunnelList, h1, h2],
    fun data fn st h1 h2 h3 => ?_,
    fun data fn st p h1 h2 h3 hne => by
      simp [getFunnelList, h1, h2, h3, hne], ?_⟩
  · rcases h3 with h3 | h3 <;> simp [getFunnelList, h1, h2, h3]
  · intro cfg r cred s acc tokf flResp foldResp cvf upd m childTok hv ht hs
      h1 hm
    simp [createAccountSSE, hv, stepCredential, ht, stepUniqueness,
      checkUserExists, hs, stepUser, stepCommandCenter, h1, hm,
      funnelStagePrefix]

/-- Witness for C8 (amended): the concrete one-funnel listing resolves to
its page id, and the empty listing fails with the no-funnels message. -/
theorem getFunnelList_resolution_witness :
    getFunnelList (Except.ok wFl) = Except.ok "page123" ∧
    getFunnelList (Except.ok (⟨[]⟩ : FunnelListData)) =
      Except.error noFunnelsMsg :=
  ⟨getFunnelList_resolution.2.2.2.2.1 wFl ⟨[⟨"Client Portal", ["page123"]⟩]⟩
     ⟨"Client Portal", ["page123"]⟩ "page123" rfl rfl rfl (by decide),
   getFunnelList_resolution.2.1 ⟨[]⟩ rfl⟩

/-- Claim C7: a scheduler run with no stored credential performs no refresh
call and no write; and a run whose refresh call fails leaves the stored
credential exactly as it was, writing nothing, so the next run retries from
the same state. -/
theorem tokenRefreshJob_noop_and_failure (now : Int)
    (cred : OAuthCredentials) (e : String)
    (resp : Except String TokenRefreshData) :
    tokenRefreshJob now none resp =
      { store := none, refreshCalled := false, wrote := false } ∧
    (tokenRefreshJob now (some cred) (Except.error e)).store = some cred ∧
    (tokenRefreshJob now (some cred) (Except.error e)).wrote = false := by
  refine ⟨rfl, ?_, ?_⟩ <;>
    by_cases h : cred.created_at + cred.expires_in - 300 ≤ now <;>
      simp [tokenRefreshJob, h]

theorem upsert_countP_ne (doc : OAuthCredentials) (c : String)
    (hne : doc.companyId ≠ c) :
    ∀ s : List OAuthCredentials,
      (findOneAndUpdateUpsert s doc).countP (fun r => r.companyId == c) =
        s.countP (fun r => r.companyId == c) := by
  intro s
  induction s with
  | nil => simp [findOneAndUpdateUpsert, List.countP_cons, hne]
  | cons r rs ih =>
    by_cases hr : r.companyId = doc.companyId
    · have hrc : (r.companyId == c) = false := by simp [hr, hne]
      have hdc : (doc.companyId == c) = false := by simp [hne]
      simp [findOneAndUpdateUpsert, if_pos hr, List.countP_cons, hrc, hdc]
    · simp only [findOneAndUpdateUpsert, if_neg hr, List.countP_cons, ih]

theorem upsert_countP_eq (doc : OAuthCredentials) :
    ∀ s : List OAuthCredentials,
      s.countP (fun r => r.companyId == doc.companyId) ≤ 1 →
      (findOneAndUpdateUpsert s doc).countP
        (fun r => r.companyId == doc.companyId) = 1 := by
  intro s
  induction s with
  | nil => intro _; simp [findOneAndUpdateUpsert, List.countP_cons]
  | cons r rs ih =>
    intro hle
    by_cases hr : r.companyId = doc.companyId
    · rw [List.countP_cons] at hle
      simp only [hr, beq_self_eq_true, if_true] at hle
      have h0 : rs.countP (fun r => r.companyId == doc.companyId) = 0 := by
        omega
      simp [findOneAndUpdateUpsert, if_pos hr, List.countP_cons, h0]
    · rw [List.countP_cons] at hle
      have hb : (r.companyId == doc.companyId) = false := by
        simp [hr]
      simp only [hb, Bool.false_eq_true, if_false] at hle
      simp only [findOneAndUpdateUpsert, if_neg hr, List.countP_cons, hb,
        Bool.false_eq_true, if_false]
      rw [ih (by omega)]

theorem upsert_atMostOne (doc : OAuthCredentials)
    (s : List OAuthCredentials) (h : atMostOnePerCompany s) :
    atMostOnePerCompany (findOneAndUpdateUpsert s doc) := by
  intro c
  by_cases hc : doc.companyId = c
  · subst hc
    rw [upsert_countP_eq doc s (h doc.companyId)]
  · rw [upsert_countP_ne doc c hc s]
    exact h c

theorem handleOAuthCallback_atMostOne (inv : CallbackInvocation)
    (s : List OAuthCredentials) (h : atMostOnePerCompany s) :
    atMostOnePerCompany (handleOAuthCallback s inv) := by
  unfold handleOAuthCallback
  by_cases hcode : inv.code = ""
  · rwa [if_pos hcode]
  · rw [if_neg hcode]
    cases inv.exchange with
    | error _ => exact h
    | ok d => exact upsert_atMostOne _ s h

theorem runCallbacks_atMostOne :
    ∀ (invs : List CallbackInvocation) (s : List OAuthCredentials),
      atMostOnePerCompany s → atMostOnePerCompany (runCallbacks s invs) := by
  intro invs
  induction invs with
  | nil => intro s h; exact h
  | cons inv invs ih =>
    intro s h
    exact ih _ (handleOAuthCallback_atMostOne inv s h)

theorem atMostOne_of_cons {r : OAuthCredentials}
    {rs : List OAuthCredentials} (h : atMostOnePerCompany (r :: rs)) :
    atMostOnePerCompany rs := by
  intro c
  have := h c
  rw [List.countP_cons] at this
  omega

theorem findOneAndUpdateUpsert_existing (doc : OAuthCredentials) :
    ∀ s : List OAuthCredentials, atMostOnePerCompany s →
      (∃ x ∈ s, x.companyId = doc.companyId) →
      findOneAndUpdateUpsert s doc =
        s.map fun x => if x.companyId = doc.companyId then doc else x := by
  intro s
  induction s with
  | nil =>
    intro _ hex
    obtain ⟨x, hx, _⟩ := hex
    cases hx
  | cons r rs ih =>
    intro h hex
    by_cases hr : r.companyId = doc.companyId
    · have h0 : rs.countP (fun x => x.companyId == doc.companyId) = 0 := by
        have := h doc.companyId
        rw [List.countP_cons] at this
        simp only [hr, beq_self_eq_true, if_pos] at this
        omega
      have hnone : ∀ x ∈ rs, x.companyId ≠ doc.companyId := by
        intro x hx
        have := List.countP_eq_zero.mp h0 x hx
        simpa using this
      simp only [findOneAndUpdateUpsert, if_pos hr, List.map_cons,
        if_pos hr]
      congr 1
      have hmap : rs.map
          (fun x => if x.companyId = doc.companyId then doc else x) =
          rs.map id :=
        List.map_congr_left fun x hx => if_neg (hnone x hx)
      rw [hmap, List.map_id]
    · obtain ⟨x, hx, hcid⟩ := hex
      rcases List.mem_cons.mp hx with rfl | hx'
      · exact absurd hcid hr
      · simp only [findOneAndUpdateUpsert, if_neg hr, List.map_cons,
          if_neg hr]
        congr 1
        exact ih (atMostOne_of_cons h) ⟨x, hx', hcid⟩

theorem findOneAndUpdateUpsert_new (doc : OAuthCredentials) :
    ∀ s : List OAuthCredentials,
      (∀ x ∈ s, x.companyId ≠ doc.companyId) →
      findOneAndUpdateUpsert s doc = s ++ [doc] := by
  intro s
  induction s with
  | nil => intro _; rfl
  | cons r rs ih =>
    intro h
    have hr : r.companyId ≠ doc.companyId := h r (List.mem_cons_self r rs)
    simp only [findOneAndUpdateUpsert, if_neg hr, List.cons_append]
    congr 1
    exact ih fun x hx => h x (List.mem_cons_of_mem r hx)

/-- Claim C4: across any sequence of authorization-callback invocations the
store keeps at most one credential document per company id; a callback for
an already-present company id overwrites that document in place (same
length, the matching document replaced), and a callback for a new company
id appends exactly one document. -/
theorem handleOAuthCallback_upsert_unique :
    (∀ (store : List OAuthCredentials) (invs : List CallbackInvocation),
      atMostOnePerCompany store →
      atMostOnePerCompany (runCallbacks store invs)) ∧
    (∀ (store : List OAuthCredentials) (d : TokenExchangeData) (now : Int),
      atMostOnePerCompany store →
      (∃ x ∈ store, x.companyId = d.companyId) →
      findOneAndUpdateUpsert store (credentialsToSave d now) =
        store.map (fun x => if x.companyId = d.companyId
          then credentialsToSave d now else x) ∧
      (findOneAndUpdateUpsert store (credentialsToSave d now)).length =
        store.length) ∧
    (∀ (store : List OAuthCredentials) (d : TokenExchangeData) (now : Int),
      (∀ x ∈ store, x.companyId ≠ d.companyId) →
      findOneAndUpdateUpsert store (credentialsToSave d now) =
        store ++ [credentialsToSave d now]) := by
  refine ⟨fun store invs h => runCallbacks_atMostOne invs store h,
    fun store d now h hex => ?_, fun store d now h =>
      findOneAndUpdateUpsert_new (credentialsToSave d now) store h⟩
  have heq := findOneAndUpdateUpsert_existing (credentialsToSave d now)
    store h hex
  exact ⟨heq, by rw [heq, List.length_map]⟩

/-- Witness for C4: two callbacks for the same company id leave a single
document; an insert into the empty store appends one document. -/
theorem handleOAuthCallback_upsert_unique_witness :
    atMostOnePerCompany (runCallbacks []
      [⟨"code1", Except.ok ⟨"a1", "r1", 3600, "u", "l", "comp1"⟩, 5⟩,
       ⟨"code2", Except.ok ⟨"a2", "r2", 3600, "u", "l", "comp1"⟩, 6⟩]) ∧
    findOneAndUpdateUpsert []
        (credentialsToSave ⟨"a1", "r1", 3600, "u", "l", "comp1"⟩ 5) =
      [] ++ [credentialsToSave ⟨"a1", "r1", 3600, "u", "l", "comp1"⟩ 5] :=
  ⟨handleOAuthCallback_upsert_unique.1 [] _ (by intro c; simp),
   handleOAuthCallback_upsert_unique.2.2 [] ⟨"a1", "r1", 3600, "u", "l",
     "comp1"⟩ 5 (by intro x hx; cases hx)⟩

end Clingy
